import Mathlib

/-!
# Verification of the pagination core of `src/static/js/editor2.js`

Shallow embedding of the multi-page Quill editor's pagination subsystem:
the page registry (`editors`, keyed by page number, kept in sync with the
DOM `.page` elements), page creation, empty-page deletion, renumbering,
the overflow split loop, the keydown handler, Enter-at-beginning handling,
and plain-text export.

A content unit ("op") is modelled as the text of one Quill insert
operation.  The rendered-layout measurement (`scrollHeight`) is modelled
as an arbitrary function from a page's ops to a rational height, compared
against the fixed `pageHeight` capacity, exactly as the source compares
`editorElement.scrollHeight > pageHeight`.
-/

/-- A content unit: the text of one Quill delta operation (an insert). -/
abbrev Op := String

/-- One page: its number (the key in the `editors` registry, also encoded
in the DOM ids `page-N` / `editor-N`, which the source keeps in sync) and
the ops of its bound Quill editor. -/
structure Page where
  num : Nat
  ops : List Op
deriving Repr, DecidableEq

/-- The editor state: the ordered list of pages (DOM order of the `.page`
elements, which also carries the `editors` registry), the global
`currentPage` counter, and the active cursor as a (page number, offset)
pair (the eventual effect of the deferred `focus`/`setSelection` calls). -/
structure EState where
  pages : List Page
  currentPage : Nat
  cursor : Option (Nat × Nat)
deriving Repr, DecidableEq

/-- `quill.getText()`: concatenation of the page's ops. -/
def getText (p : Page) : String := String.join p.ops

/-- JavaScript `String.prototype.trim`: drop whitespace from both ends
(written over the character list so that it evaluates in the kernel). -/
def jsTrim (s : String) : String :=
  ⟨(((s.data.dropWhile Char.isWhitespace).reverse.dropWhile Char.isWhitespace).reverse)⟩

/-- `isPageEmpty` (editor2.js:1603): text equal to a single newline (the
Quill convention for an empty document) or trimming to the empty string. -/
def isPageEmpty (p : Page) : Bool := getText p == "\n" || jsTrim (getText p) == ""

/-- Look up `editors[n]` / the DOM element `page-n`. -/
def findPage (s : EState) (n : Nat) : Option Page :=
  s.pages.find? (fun p => p.num == n)

/-- The list of live page numbers, in DOM order. -/
def ranks (s : EState) : List Nat := s.pages.map Page.num

/-- `Math.max(...Object.keys(editors).map(Number))` (editor2.js:1755),
with 0 for the empty registry. -/
def maxNum (l : List Page) : Nat := l.foldl (fun a p => max a p.num) 0

/-- `updatePageCount` (editor2.js:1752): resets the global `currentPage`
to the maximal live page number (the display update is out of scope). -/
def updatePageCount (s : EState) : EState := { s with currentPage := maxNum s.pages }

/-- Helper for `renumberPages`: reassign page numbers `n, n+1, ...` in
DOM order. -/
def renumberFrom : Nat → List Page → List Page
  | _, [] => []
  | n, p :: rest => { p with num := n } :: renumberFrom (n + 1) rest

/-- `renumberPages` (editor2.js:1667): walks the `.page` elements in DOM
order, reassigns dense numbers starting at 1 (element ids and the
`editors` registry together), and sets `currentPage = newPageNum - 1`,
i.e. the number of pages. -/
def renumberPages (s : EState) : EState :=
  { s with pages := renumberFrom 1 s.pages, currentPage := s.pages.length }

/-- `createNewPage` (editor2.js:1698): increments `currentPage`, appends a
`.page` element with that number, binds a fresh (empty, hence text `"\n"`)
Quill editor to it, and calls `updatePageCount`. -/
def createNewPage (s : EState) : EState :=
  let c := s.currentPage + 1
  updatePageCount { s with pages := s.pages ++ [{ num := c, ops := ["\n"] }], currentPage := c }

/-- `deleteEmptyPage` (editor2.js:1610): refuses page 1; refuses when the
page is not registered; re-verifies emptiness; on success removes the page
from DOM and registry, schedules focus of the previous page at
`getLength() - 1`, then renumbers and updates the page count. -/
def deleteEmptyPage (s : EState) (pageNum : Nat) : EState × Bool :=
  if pageNum = 1 then (s, false)
  else
    match findPage s pageNum with
    | none => (s, false)
    | some ed =>
      if isPageEmpty ed then
        let removed := s.pages.eraseP (fun p => p.num == pageNum)
        let cur := match findPage s (pageNum - 1) with
          | some prev => some (pageNum - 1, (getText prev).length - 1)
          | none => s.cursor
        let s' : EState := { pages := removed, currentPage := s.currentPage, cursor := cur }
        (updatePageCount (renumberPages s'), true)
      else (s, false)

/-- `const pageHeight = (297 - 40) * 3.78` (editor2.js:1391): the fixed
page capacity, as the exact rational value 48573/50 = 971.46 of the
source's formula (written via `mkRat` so that it evaluates in the kernel;
`pageHeight_eq_formula` below proves it equal to the source's formula). -/
def pageHeight : ℚ := mkRat 48573 50

/-- The `while` loop of `moveOverflowContent` (editor2.js:1736), with fuel:
while the measured height exceeds `pageHeight` and more than one op
remains, pop the last op from the source and prepend it to the moved ops,
re-measuring after each pop.  The fuel is only a structural-recursion
device; `splitLoop_unfold` below proves the fuel-free loop equation. -/
def splitLoopAux (m : List Op → ℚ) : Nat → List Op → List Op → List Op × List Op
  | 0, ops, acc => (ops, acc)
  | fuel + 1, ops, acc =>
    if pageHeight < m ops ∧ 1 < ops.length then
      splitLoopAux m fuel ops.dropLast ((ops.getLast?.getD "") :: acc)
    else (ops, acc)

/-- The split loop, entered with fuel equal to the number of ops (the loop
pops one op per iteration, so this fuel is never exhausted). -/
def splitLoop (m : List Op → ℚ) (ops acc : List Op) : List Op × List Op :=
  splitLoopAux m ops.length ops acc

/-- Replace the ops of the page numbered `n` (pointwise form of
`quill.setContents(...)` on that page's editor). -/
def updOps (n : Nat) (o : List Op) (p : Page) : Page :=
  if p.num == n then { p with ops := o } else p

/-- Append ops to the page numbered `n` (pointwise form of transferring
content to the end of that page). -/
def appendOps (n : Nat) (extra : List Op) (p : Page) : Page :=
  if p.num == n then { p with ops := p.ops ++ extra } else p

/-- `quill.setContents(...)` on the editor of page `n`. -/
def setPageOps (s : EState) (n : Nat) (ops : List Op) : EState :=
  { s with pages := s.pages.map (updOps n ops) }

/-- `moveOverflowContent` (editor2.js:1719): the target is the page
numbered by the global `currentPage` (the last page); returns unchanged if
that editor is missing; when the source has more than one op, runs the
split loop and writes the kept ops back to the source and, when anything
was moved, the moved ops to the target. -/
def moveOverflowContent (s : EState) (pageNum : Nat) (m : List Op → ℚ) : EState :=
  let nextPageNum := s.currentPage
  match findPage s nextPageNum, findPage s pageNum with
  | some _, some src =>
    if 1 < src.ops.length then
      let r := splitLoop m src.ops []
      let s₁ := setPageOps s pageNum r.1
      if r.2.isEmpty then s₁ else setPageOps s₁ nextPageNum r.2
    else s
  | _, _ => s

/-- `checkPageOverflow` (editor2.js:1562): if the page's editor element is
missing, do nothing; if its scroll height exceeds `pageHeight`,
unconditionally `createNewPage()` and then `moveOverflowContent`. -/
def checkPageOverflow (s : EState) (pageNum : Nat) (m : List Op → ℚ) : EState :=
  match findPage s pageNum with
  | none => s
  | some p =>
    if pageHeight < m p.ops then moveOverflowContent (createNewPage s) pageNum m
    else s

/-- `handleEnterAtBeginning` (editor2.js:1573): when the selection is at
index 0, reads the page's contents, creates a new page unless
`editors[currentPage + 1]` exists, writes the contents into
`editors[currentPage]`, clears the current page with `setContents([])`,
and schedules focus of that target page at selection 0; returns whether
the default Enter behavior is prevented. -/
def handleEnterAtBeginning (s : EState) (pageNum : Nat) (cursorOffset : Option Nat) :
    EState × Bool :=
  match cursorOffset with
  | some 0 =>
    match findPage s pageNum with
    | none => (s, false)
    | some cur =>
      let s₁ := if (findPage s (s.currentPage + 1)).isSome then s else createNewPage s
      let nextNum := s₁.currentPage
      let s₂ := setPageOps s₁ nextNum cur.ops
      let s₃ := setPageOps s₂ pageNum []
      ({ s₃ with cursor := some (nextNum, 0) }, true)
  | _ => (s, false)

/-- Modelled from the spec: `isCursorAtBeginning` is called by the keydown
handler (editor2.js:1502) but its definition is absent from the
repository; the spec's transition 2 applies "when cursor is at offset 0",
so the check is that the selection offset equals 0. -/
def isCursorAtBeginning (cursorOffset : Option Nat) : Bool := cursorOffset == some 0

/-- Modelled from the spec: `moveContentToPreviousPage` is called by the
keydown handler (editor2.js:1527) but its definition is absent from the
repository.  From the spec's transition 2: transfer this page's entire
content to the end of the previous page's content, delete this
(now-empty) page, renumber, and place the cursor at the join point (the
end of what was previously the previous page's content). -/
def moveContentToPreviousPage (s : EState) (pageNum : Nat) : EState × Bool :=
  match findPage s (pageNum - 1), findPage s pageNum with
  | some prev, some cur =>
    let merged := s.pages.map (appendOps (pageNum - 1) cur.ops)
    let removed := merged.eraseP (fun p => p.num == pageNum)
    let s' : EState := { pages := removed, currentPage := s.currentPage,
                         cursor := some (pageNum - 1, (getText prev).length) }
    (updatePageCount (renumberPages s'), true)
  | _, _ => (s, false)

/-- The keys the keydown handler (editor2.js:1496) distinguishes. -/
inductive Key
  | backspace
  | del
  | other
deriving Repr, DecidableEq

/-- The keydown handler (editor2.js:1496): on Backspace with page number
greater than 1, an empty page is deleted (default prevented); otherwise,
with the cursor at the beginning, the content is merged into the previous
page (default prevented); on Delete with page number greater than 1 an
empty page is deleted (default prevented).  Returns the new state and
whether the default was prevented. -/
def handleKeydown (s : EState) (key : Key) (pageNum : Nat) (cursorOffset : Option Nat) :
    EState × Bool :=
  match key with
  | .backspace =>
    if 1 < pageNum then
      match findPage s pageNum with
      | none => (s, false)
      | some p =>
        if isPageEmpty p then ((deleteEmptyPage s pageNum).1, true)
        else if isCursorAtBeginning cursorOffset then
          ((moveContentToPreviousPage s pageNum).1, true)
        else (s, false)
    else (s, false)
  | .del =>
    if 1 < pageNum then
      match findPage s pageNum with
      | none => (s, false)
      | some p => if isPageEmpty p then ((deleteEmptyPage s pageNum).1, true) else (s, false)
    else (s, false)
  | .other => (s, false)

/-- The origin of a Quill `text-change` event. -/
inductive Origin
  | user
  | api
  | silent
deriving Repr, DecidableEq

/-- The `text-change` handler (editor2.js:1471): only when the origin is
`'user'` does it run `checkPageOverflow`.  Returns the new state and
whether the overflow check was invoked. -/
def onTextChange (s : EState) (origin : Origin) (pageNum : Nat) (m : List Op → ℚ) :
    EState × Bool :=
  match origin with
  | .user => (checkPageOverflow s pageNum m, true)
  | _ => (s, false)

/-- One page's section of the plain-text export: the separator followed by
the page's text. -/
def pageSection (p : Page) : String :=
  "\n\n--- Page " ++ toString p.num ++ " ---\n\n" ++ getText p

/-- `Object.keys(editors).sort((a, b) => parseInt(a) - parseInt(b))`
(editor2.js:1873): the pages in ascending numeric order of their keys. -/
def sortPages (l : List Page) : List Page :=
  l.insertionSort (fun p q => p.num ≤ q.num)

/-- `exportAsText` (editor2.js:1872): for each page in ascending key
order, append the `--- Page N ---` separator and the page's text. -/
def exportAsText (s : EState) : String :=
  (sortPages s.pages).foldl (fun acc p => acc ++ pageSection p) ""

/-- Sections concatenated in list order (used to characterize
`exportAsText`). -/
def renderPages : List Page → String
  | [] => ""
  | p :: rest => pageSection p ++ renderPages rest

/-- Rank density: the live page numbers, in DOM order, are exactly
`1..N`. -/
def RanksDense (s : EState) : Prop := ranks s = List.range' 1 s.pages.length

/-- Well-formedness between operations: dense ranks and `currentPage`
equal to the number of pages. -/
def WF (s : EState) : Prop := RanksDense s ∧ s.currentPage = s.pages.length

instance : DecidableRel (fun p q : Page => p.num ≤ q.num) :=
  fun p q => Nat.decLe p.num q.num

instance : IsTotal Page (fun p q : Page => p.num ≤ q.num) :=
  ⟨fun p q => Nat.le_total p.num q.num⟩

instance : IsTrans Page (fun p q : Page => p.num ≤ q.num) :=
  ⟨fun _ _ _ h₁ h₂ => le_trans h₁ h₂⟩

instance : Decidable (RanksDense s) := by
  unfold RanksDense; infer_instance

instance : Decidable (WF s) := by
  unfold WF; exact instDecidableAnd

/-! ### Properties of the split loop -/

theorem dropLast_append_getLastD (ops acc : List Op) (h : ops ≠ []) :
    ops.dropLast ++ (ops.getLast?.getD "") :: acc = ops ++ acc := by
  conv_rhs => rw [← List.dropLast_append_getLast h]
  rw [List.getLast?_eq_getLast ops h, Option.getD_some, List.append_assoc]
  rfl

theorem splitLoopAux_fuel (m : List Op → ℚ) :
    ∀ f₁ f₂ ops acc, ops.length ≤ f₁ → ops.length ≤ f₂ →
      splitLoopAux m f₁ ops acc = splitLoopAux m f₂ ops acc := by
  intro f₁
  induction f₁ with
  | zero =>
    intro f₂ ops acc h₁ _
    have hops : ops = [] := List.eq_nil_of_length_eq_zero (Nat.le_zero.mp h₁)
    subst hops
    cases f₂ with
    | zero => rfl
    | succ g =>
      rw [splitLoopAux, splitLoopAux, if_neg]
      intro hcon
      exact absurd hcon.2 (by simp)
  | succ f ih =>
    intro f₂ ops acc h₁ h₂
    cases f₂ with
    | zero =>
      have hops : ops = [] := List.eq_nil_of_length_eq_zero (Nat.le_zero.mp h₂)
      subst hops
      rw [splitLoopAux, splitLoopAux, if_neg]
      intro hcon
      exact absurd hcon.2 (by simp)
    | succ g =>
      rw [splitLoopAux, splitLoopAux]
      split
      case isTrue h =>
        apply ih
        · rw [List.length_dropLast]; omega
        · rw [List.length_dropLast]; omega
      case isFalse h => rfl

theorem splitLoopAux_stop (m : List Op → ℚ) (fuel : Nat) (ops acc : List Op)
    (hc : ¬(pageHeight < m ops ∧ 1 < ops.length)) :
    splitLoopAux m fuel ops acc = (ops, acc) := by
  cases fuel with
  | zero => rfl
  | succ f => rw [splitLoopAux, if_neg hc]

theorem splitLoop_unfold (m : List Op → ℚ) (ops acc : List Op) :
    splitLoop m ops acc =
      if pageHeight < m ops ∧ 1 < ops.length then
        splitLoop m ops.dropLast ((ops.getLast?.getD "") :: acc)
      else (ops, acc) := by
  unfold splitLoop
  by_cases hc : pageHeight < m ops ∧ 1 < ops.length
  · rw [if_pos hc]
    obtain ⟨k, hk⟩ : ∃ k, ops.length = k + 1 := ⟨ops.length - 1, by omega⟩
    conv_lhs => rw [hk]
    rw [splitLoopAux, if_pos hc]
    apply splitLoopAux_fuel
    · rw [List.length_dropLast]; omega
    · exact Nat.le.refl
  · rw [if_neg hc]
    exact splitLoopAux_stop m ops.length ops acc hc

theorem splitLoop_spec (m : List Op → ℚ) (ops acc : List Op) :
    ((splitLoop m ops acc).1 ++ (splitLoop m ops acc).2 = ops ++ acc)
      ∧ (ops ≠ [] → (splitLoop m ops acc).1 ≠ [])
      ∧ (∃ pre, (splitLoop m ops acc).2 = pre ++ acc) := by
  have H : ∀ n ops acc, ops.length = n →
      ((splitLoop m ops acc).1 ++ (splitLoop m ops acc).2 = ops ++ acc)
        ∧ (ops ≠ [] → (splitLoop m ops acc).1 ≠ [])
        ∧ (∃ pre, (splitLoop m ops acc).2 = pre ++ acc) := by
    intro n
    induction n using Nat.strong_induction_on with
    | _ n ih =>
      intro ops acc hlen
      rw [splitLoop_unfold]
      by_cases hc : pageHeight < m ops ∧ 1 < ops.length
      · rw [if_pos hc]
        have hne : ops ≠ [] := by
          intro h; rw [h] at hc; exact absurd hc.2 (by simp)
        have hlt : ops.dropLast.length < n := by
          rw [List.length_dropLast]; omega
        obtain ⟨h1, h2, h3⟩ := ih _ hlt ops.dropLast ((ops.getLast?.getD "") :: acc) rfl
        refine ⟨?_, ?_, ?_⟩
        · rw [h1, dropLast_append_getLastD ops acc hne]
        · intro _
          apply h2
          apply List.ne_nil_of_length_pos
          rw [List.length_dropLast]; omega
        · obtain ⟨pre, hpre⟩ := h3
          refine ⟨pre ++ [ops.getLast?.getD ""], ?_⟩
          rw [hpre, List.append_assoc]
          rfl
      · rw [if_neg hc]
        exact ⟨rfl, fun h => h, ⟨[], rfl⟩⟩
  exact H ops.length ops acc rfl

/-! ### Dense-rank machinery -/

theorem renumberFrom_length (l : List Page) : ∀ n, (renumberFrom n l).length = l.length := by
  induction l with
  | nil => intro n; rfl
  | cons p rest ih => intro n; simp [renumberFrom, ih]

theorem renumberFrom_map_num (l : List Page) :
    ∀ n, (renumberFrom n l).map Page.num = List.range' n l.length := by
  induction l with
  | nil => intro n; rfl
  | cons p rest ih =>
    intro n
    rw [List.length_cons, List.range'_succ]
    simp [renumberFrom, ih]

theorem renumberFrom_getElem? (l : List Page) :
    ∀ n i, (renumberFrom n l)[i]? = l[i]?.map (fun p : Page => { p with num := n + i }) := by
  induction l with
  | nil => intro n i; simp [renumberFrom]
  | cons p rest ih =>
    intro n i
    cases i with
    | zero => simp [renumberFrom]
    | succ j =>
      simp only [renumberFrom, List.getElem?_cons_succ]
      rw [ih (n + 1) j]
      have harith : n + 1 + j = n + (j + 1) := by omega
      rw [harith]

theorem foldl_max_range' (N : Nat) : ∀ a, List.foldl max a (List.range' 1 N) = max a N := by
  induction N with
  | zero => intro a; simp
  | succ n ih =>
    intro a
    rw [List.range'_concat, List.foldl_append, ih]
    simp only [List.foldl_cons, List.foldl_nil]
    omega

theorem maxNum_dense (l : List Page) (h : l.map Page.num = List.range' 1 l.length) :
    maxNum l = l.length := by
  have h1 : maxNum l = List.foldl max 0 (l.map Page.num) := by
    rw [List.foldl_map]
    rfl
  rw [h1, h, foldl_max_range']
  omega

theorem num_getElem_dense (l : List Page) (a : Nat) (h : l.map Page.num = List.range' a l.length)
    (i : Nat) (hi : i < l.length) : (l[i]).num = a + i := by
  have h1 : (l.map Page.num)[i]? = l[i]?.map Page.num := List.getElem?_map Page.num l i
  rw [h, List.getElem?_eq_getElem (by rw [List.length_range']; exact hi),
    List.getElem_range', List.getElem?_eq_getElem hi] at h1
  simp only [Option.map_some'] at h1
  have h2 := Option.some.inj h1
  omega

theorem find?_dense (l : List Page) : ∀ (a k : Nat),
    l.map Page.num = List.range' a l.length → a ≤ k → k < a + l.length →
    l.find? (fun p => p.num == k) = l[k - a]? := by
  induction l with
  | nil =>
    intro a k _ h1 h2
    simp only [List.length_nil] at h2
    omega
  | cons p rest ih =>
    intro a k h h1 h2
    simp only [List.map_cons, List.length_cons, List.range'_succ] at h
    injection h with hp hrest
    by_cases hk : k = a
    · rw [List.find?_cons_of_pos rest (by simp [hp, hk])]
      have h0 : k - a = 0 := by omega
      rw [h0, List.getElem?_cons_zero]
    · have hak : a < k := lt_of_le_of_ne h1 (Ne.symm hk)
      rw [List.find?_cons_of_neg rest (by simp [hp]; omega)]
      rw [ih (a + 1) k hrest (by omega) (by simp only [List.length_cons] at h2; omega)]
      have h3 : k - a = (k - (a + 1)) + 1 := by omega
      rw [h3, List.getElem?_cons_succ]

theorem eraseP_dense (l : List Page) : ∀ (a k : Nat),
    l.map Page.num = List.range' a l.length → a ≤ k → k < a + l.length →
    l.eraseP (fun p => p.num == k) = l.take (k - a) ++ l.drop (k - a + 1) := by
  induction l with
  | nil =>
    intro a k _ h1 h2
    simp only [List.length_nil] at h2
    omega
  | cons p rest ih =>
    intro a k h h1 h2
    simp only [List.map_cons, List.length_cons, List.range'_succ] at h
    injection h with hp hrest
    by_cases hk : k = a
    · rw [List.eraseP_cons_of_pos (by simp [hp, hk])]
      have h0 : k - a = 0 := by omega
      rw [h0]
      simp
    · have hak : a < k := lt_of_le_of_ne h1 (Ne.symm hk)
      rw [List.eraseP_cons_of_neg (by simp [hp]; omega)]
      rw [ih (a + 1) k hrest (by omega) (by simp only [List.length_cons] at h2; omega)]
      have h3 : k - a = (k - (a + 1)) + 1 := by omega
      rw [h3, List.take_succ_cons, List.drop_succ_cons, List.cons_append]

/-! ### Lookup lemmas -/

theorem findPage_dense (s : EState) (hd : RanksDense s) (k : Nat) (h1 : 1 ≤ k)
    (h2 : k ≤ s.pages.length) : findPage s k = s.pages[k - 1]? :=
  find?_dense s.pages 1 k hd h1 (by omega)

theorem findPage_some_mem {s : EState} {k : Nat} {p : Page} (h : findPage s k = some p) :
    p ∈ s.pages ∧ p.num = k := by
  refine ⟨List.mem_of_find?_eq_some h, ?_⟩
  have := List.find?_some h
  simpa using this

theorem findPage_bounds {s : EState} (hd : RanksDense s) {k : Nat} {p : Page}
    (h : findPage s k = some p) : 1 ≤ k ∧ k ≤ s.pages.length := by
  obtain ⟨hm, hnum⟩ := findPage_some_mem h
  have hmem : p.num ∈ ranks s := List.mem_map_of_mem Page.num hm
  rw [hd, hnum] at hmem
  have := List.mem_range'_1.mp hmem
  omega

theorem findPage_none_of_gt (s : EState) (hd : RanksDense s) (k : Nat)
    (h : s.pages.length < k) : findPage s k = none := by
  apply List.find?_eq_none.mpr
  intro p hp
  have hmem : p.num ∈ ranks s := List.mem_map_of_mem Page.num hp
  rw [hd] at hmem
  have hb := List.mem_range'_1.mp hmem
  simp only [beq_iff_eq]
  omega

theorem updOps_num (n : Nat) (o : List Op) (p : Page) : (updOps n o p).num = p.num := by
  unfold updOps
  split <;> rfl

theorem appendOps_num (n : Nat) (extra : List Op) (p : Page) :
    (appendOps n extra p).num = p.num := by
  unfold appendOps
  split <;> rfl

theorem map_num_map_eq (f : Page → Page) (hf : ∀ p, (f p).num = p.num) (l : List Page) :
    (l.map f).map Page.num = l.map Page.num := by
  rw [List.map_map]
  exact List.map_congr_left (fun p _ => hf p)

theorem find?_map_num_eq (f : Page → Page) (hf : ∀ p, (f p).num = p.num) (k : Nat)
    (l : List Page) :
    (l.map f).find? (fun p => p.num == k) = (l.find? (fun p => p.num == k)).map f := by
  induction l with
  | nil => rfl
  | cons p rest ih =>
    simp only [List.map_cons]
    by_cases hp : (p.num == k) = true
    · rw [@List.find?_cons_of_pos Page (fun q => q.num == k) (f p) (rest.map f)
        (by show ((f p).num == k) = true; rw [hf]; exact hp)]
      rw [@List.find?_cons_of_pos Page (fun q => q.num == k) p rest hp]
      rfl
    · rw [@List.find?_cons_of_neg Page (fun q => q.num == k) (f p) (rest.map f)
        (by show ¬((f p).num == k) = true; rw [hf]; exact hp)]
      rw [@List.find?_cons_of_neg Page (fun q => q.num == k) p rest hp, ih]

theorem findPage_setPageOps (s : EState) (n : Nat) (o : List Op) (k : Nat) :
    findPage (setPageOps s n o) k = (findPage s k).map (updOps n o) :=
  find?_map_num_eq (updOps n o) (updOps_num n o) k s.pages

theorem updOps_of_num_eq {p : Page} {n : Nat} (o : List Op) (h : p.num = n) :
    updOps n o p = { p with ops := o } := by
  unfold updOps
  rw [if_pos (by simp [h])]

theorem updOps_of_num_ne {p : Page} {n : Nat} (o : List Op) (h : p.num ≠ n) :
    updOps n o p = p := by
  unfold updOps
  rw [if_neg (by simp [h])]

theorem findPage_createNewPage_append (s : EState) (k : Nat) :
    findPage (createNewPage s) k =
      (findPage s k).or
        (List.find? (fun p => p.num == k) [({ num := s.currentPage + 1, ops := ["\n"] } : Page)]) := by
  show (s.pages ++ [({ num := s.currentPage + 1, ops := ["\n"] } : Page)]).find?
      (fun p => p.num == k) = _
  rw [List.find?_append]
  rfl

theorem findPage_createNewPage_of_some {s : EState} {k : Nat} {p : Page}
    (h : findPage s k = some p) : findPage (createNewPage s) k = some p := by
  rw [findPage_createNewPage_append, h]
  rfl

theorem findPage_createNewPage_of_ne (s : EState) (k : Nat) (hk : k ≠ s.currentPage + 1) :
    findPage (createNewPage s) k = findPage s k := by
  rw [findPage_createNewPage_append]
  have hnew : List.find? (fun p => p.num == k)
      [({ num := s.currentPage + 1, ops := ["\n"] } : Page)] = none := by
    rw [List.find?_eq_none]
    intro x hx
    simp only [List.mem_singleton] at hx
    subst hx
    simp only [beq_iff_eq]
    omega
  rw [hnew]
  cases findPage s k <;> rfl

theorem findPage_createNewPage_new (s : EState) (h : WF s) :
    findPage (createNewPage s) (s.pages.length + 1) =
      some ⟨s.pages.length + 1, ["\n"]⟩ := by
  obtain ⟨hd, hc⟩ := h
  rw [findPage_createNewPage_append, findPage_none_of_gt s hd _ (by omega), hc]
  show List.find? (fun p => p.num == s.pages.length + 1)
      [({ num := s.pages.length + 1, ops := ["\n"] } : Page)] = _
  rw [@List.find?_cons_of_pos Page (fun p => p.num == s.pages.length + 1)
    ({ num := s.pages.length + 1, ops := ["\n"] } : Page) [] (by simp)]

/-! ### Rank and length preservation -/

theorem pages_setPageOps (s : EState) (n : Nat) (o : List Op) :
    (setPageOps s n o).pages = s.pages.map (updOps n o) := rfl

theorem length_setPageOps (s : EState) (n : Nat) (o : List Op) :
    (setPageOps s n o).pages.length = s.pages.length := by
  rw [pages_setPageOps, List.length_map]

theorem ranks_setPageOps (s : EState) (n : Nat) (o : List Op) :
    ranks (setPageOps s n o) = ranks s :=
  map_num_map_eq (updOps n o) (updOps_num n o) s.pages

theorem currentPage_setPageOps (s : EState) (n : Nat) (o : List Op) :
    (setPageOps s n o).currentPage = s.currentPage := rfl

theorem WF_setPageOps (s : EState) (n : Nat) (o : List Op) (h : WF s) :
    WF (setPageOps s n o) := by
  obtain ⟨hd, hc⟩ := h
  constructor
  · show ranks (setPageOps s n o) = _
    rw [ranks_setPageOps, length_setPageOps]
    exact hd
  · rw [currentPage_setPageOps, length_setPageOps]
    exact hc

theorem WF_createNewPage (s : EState) (h : WF s) : WF (createNewPage s) := by
  obtain ⟨hd, hc⟩ := h
  have hpages : (createNewPage s).pages
      = s.pages ++ [({ num := s.currentPage + 1, ops := ["\n"] } : Page)] := rfl
  have hranks : ranks (createNewPage s) = List.range' 1 (s.pages.length + 1) := by
    show (s.pages ++ [({ num := s.currentPage + 1, ops := ["\n"] } : Page)]).map Page.num = _
    rw [List.map_append, List.range'_concat]
    show ranks s ++ [({ num := s.currentPage + 1, ops := ["\n"] } : Page).num] = _
    rw [hd, hc]
    congr 1
    show [s.pages.length + 1] = [1 + 1 * s.pages.length]
    congr 1
    omega
  have hd2 : RanksDense (createNewPage s) := by
    show ranks _ = _
    rw [hranks, hpages, List.length_append]
    rfl
  refine ⟨hd2, ?_⟩
  show maxNum (createNewPage s).pages = _
  exact maxNum_dense _ hd2

theorem WF_renumber_update (s : EState) :
    WF (updatePageCount (renumberPages s)) := by
  have hpages : (updatePageCount (renumberPages s)).pages = renumberFrom 1 s.pages := rfl
  have hranks : ranks (updatePageCount (renumberPages s)) = List.range' 1 s.pages.length := by
    show (renumberFrom 1 s.pages).map Page.num = _
    rw [renumberFrom_map_num]
  constructor
  · show ranks _ = List.range' 1 _
    rw [hranks, hpages, renumberFrom_length]
  · show maxNum (renumberFrom 1 s.pages) = (renumberFrom 1 s.pages).length
    rw [maxNum_dense _ (by rw [renumberFrom_map_num, renumberFrom_length])]

/-! ### Operation-level structure lemmas -/

theorem length_pages_of_ranks_eq {s t : EState} (h : ranks s = ranks t) :
    s.pages.length = t.pages.length := by
  have := congrArg List.length h
  simpa [ranks] using this

theorem ranks_moveOverflowContent (s : EState) (pageNum : Nat) (m : List Op → ℚ) :
    ranks (moveOverflowContent s pageNum m) = ranks s ∧
    (moveOverflowContent s pageNum m).currentPage = s.currentPage := by
  simp only [moveOverflowContent]
  split
  · split
    · split
      · exact ⟨ranks_setPageOps s pageNum _, rfl⟩
      · refine ⟨?_, rfl⟩
        rw [show ranks (setPageOps (setPageOps s pageNum _) s.currentPage _)
            = ranks (setPageOps s pageNum _) from ranks_setPageOps _ _ _]
        exact ranks_setPageOps s pageNum _
    · exact ⟨rfl, rfl⟩
  · exact ⟨rfl, rfl⟩

theorem WF_moveOverflowContent (s : EState) (pageNum : Nat) (m : List Op → ℚ) (h : WF s) :
    WF (moveOverflowContent s pageNum m) := by
  obtain ⟨hr, hc⟩ := ranks_moveOverflowContent s pageNum m
  obtain ⟨hd, hcp⟩ := h
  constructor
  · show ranks _ = _
    rw [hr, length_pages_of_ranks_eq hr]
    exact hd
  · rw [hc, length_pages_of_ranks_eq hr]
    exact hcp

theorem WF_checkPageOverflow (s : EState) (pageNum : Nat) (m : List Op → ℚ) (h : WF s) :
    WF (checkPageOverflow s pageNum m) := by
  unfold checkPageOverflow
  split
  · exact h
  · split
    · exact WF_moveOverflowContent _ _ _ (WF_createNewPage s h)
    · exact h

theorem deleteEmptyPage_page_one (s : EState) : deleteEmptyPage s 1 = (s, false) := by
  unfold deleteEmptyPage
  rw [if_pos rfl]

theorem deleteEmptyPage_not_found (s : EState) (k : Nat) (h1 : k ≠ 1)
    (hf : findPage s k = none) : deleteEmptyPage s k = (s, false) := by
  unfold deleteEmptyPage
  rw [if_neg h1]
  simp only [hf]

theorem deleteEmptyPage_not_empty (s : EState) (k : Nat) (ed : Page) (h1 : k ≠ 1)
    (hf : findPage s k = some ed) (he : isPageEmpty ed = false) :
    deleteEmptyPage s k = (s, false) := by
  unfold deleteEmptyPage
  rw [if_neg h1]
  simp only [hf, he]
  rfl

theorem deleteEmptyPage_eq_success (s : EState) (k : Nat) (ed prev : Page)
    (hd : RanksDense s) (h1 : k ≠ 1) (hf : findPage s k = some ed)
    (he : isPageEmpty ed = true) (hprev : findPage s (k - 1) = some prev) :
    deleteEmptyPage s k =
      (updatePageCount (renumberPages
        ⟨s.pages.take (k - 1) ++ s.pages.drop k, s.currentPage,
         some (k - 1, (getText prev).length - 1)⟩), true) := by
  obtain ⟨hb1, hb2⟩ := findPage_bounds hd hf
  unfold deleteEmptyPage
  rw [if_neg h1]
  simp only [hf, he, hprev]
  rw [eraseP_dense s.pages 1 k hd hb1 (by omega)]
  have hk : k - 1 + 1 = k := by omega
  rw [hk, if_pos trivial]

theorem moveContentToPreviousPage_eq (s : EState) (k : Nat) (prev cur : Page)
    (hd : RanksDense s) (hprev : findPage s (k - 1) = some prev)
    (hcur : findPage s k = some cur) :
    moveContentToPreviousPage s k =
      (updatePageCount (renumberPages
        ⟨(s.pages.map (appendOps (k - 1) cur.ops)).take (k - 1)
            ++ (s.pages.map (appendOps (k - 1) cur.ops)).drop k,
          s.currentPage, some (k - 1, (getText prev).length)⟩), true) := by
  obtain ⟨hb1, hb2⟩ := findPage_bounds hd hcur
  unfold moveContentToPreviousPage
  simp only [hprev, hcur]
  have hd2 : (s.pages.map (appendOps (k - 1) cur.ops)).map Page.num
      = List.range' 1 (s.pages.map (appendOps (k - 1) cur.ops)).length := by
    rw [map_num_map_eq _ (appendOps_num _ _), List.length_map]
    exact hd
  rw [eraseP_dense _ 1 k hd2 hb1 (by rw [List.length_map]; omega)]
  have hk : k - 1 + 1 = k := by omega
  rw [hk]

theorem renumber_update_lookup (R : List Page) (c : Nat) (cur : Option (Nat × Nat)) (j : Nat)
    (h1 : 1 ≤ j) (h2 : j ≤ R.length) :
    findPage (updatePageCount (renumberPages ⟨R, c, cur⟩)) j
      = R[j - 1]?.map (fun p : Page => { p with num := j }) := by
  have hWF := WF_renumber_update (⟨R, c, cur⟩ : EState)
  have hlen : (updatePageCount (renumberPages (⟨R, c, cur⟩ : EState))).pages.length
      = R.length := by
    show (renumberFrom 1 R).length = R.length
    exact renumberFrom_length R 1
  rw [findPage_dense _ hWF.1 j h1 (by rw [hlen]; exact h2)]
  show (renumberFrom 1 R)[j - 1]? = _
  rw [renumberFrom_getElem?]
  have hj : 1 + (j - 1) = j := by omega
  rw [hj]

/-! ### Handler branch lemmas -/

theorem page_update_num_self (p : Page) (v : Nat) (h : p.num = v) :
    ({ p with num := v } : Page) = p := by
  cases p with
  | mk n o =>
    simp only at h
    rw [h]

theorem appendOps_of_num_eq {p : Page} {n : Nat} (extra : List Op) (h : p.num = n) :
    appendOps n extra p = { p with ops := p.ops ++ extra } := by
  unfold appendOps
  rw [if_pos (by simp [h])]

theorem deleteEmptyPage_WF_ne (s : EState) (k : Nat) (h : WF s) (hne : s.pages ≠ []) :
    WF (deleteEmptyPage s k).1 ∧ (deleteEmptyPage s k).1.pages ≠ [] := by
  by_cases hk1 : k = 1
  · subst hk1
    rw [deleteEmptyPage_page_one]
    exact ⟨h, hne⟩
  · cases hf : findPage s k with
    | none =>
      rw [deleteEmptyPage_not_found s k hk1 hf]
      exact ⟨h, hne⟩
    | some ed =>
      by_cases hemp : isPageEmpty ed = true
      · obtain ⟨hb1, hb2⟩ := findPage_bounds h.1 hf
        have hk2 : 2 ≤ k := by omega
        obtain ⟨prev, hprev⟩ : ∃ prev, findPage s (k - 1) = some prev := by
          rw [findPage_dense s h.1 (k - 1) (by omega) (by omega)]
          exact ⟨_, List.getElem?_eq_getElem (by omega)⟩
        rw [deleteEmptyPage_eq_success s k ed prev h.1 hk1 hf hemp hprev]
        refine ⟨WF_renumber_update _, ?_⟩
        show renumberFrom 1 _ ≠ []
        apply List.ne_nil_of_length_pos
        rw [renumberFrom_length, List.length_append, List.length_take, List.length_drop]
        omega
      · have hemp' : isPageEmpty ed = false := by
          cases hb : isPageEmpty ed
          · rfl
          · exact absurd hb hemp
        rw [deleteEmptyPage_not_empty s k ed hk1 hf hemp']
        exact ⟨h, hne⟩

theorem length_pages_createNewPage (s : EState) :
    (createNewPage s).pages.length = s.pages.length + 1 := by
  show (s.pages ++ [_]).length = _
  rw [List.length_append]
  rfl

theorem checkPageOverflow_ne (s : EState) (pageNum : Nat) (m : List Op → ℚ)
    (hne : s.pages ≠ []) : (checkPageOverflow s pageNum m).pages ≠ [] := by
  unfold checkPageOverflow
  split
  · exact hne
  · split
    · apply List.ne_nil_of_length_pos
      rw [length_pages_of_ranks_eq (ranks_moveOverflowContent (createNewPage s) pageNum m).1,
        length_pages_createNewPage]
      omega
    · exact hne

theorem handleKeydown_page_one (s : EState) (key : Key) (off : Option Nat) :
    handleKeydown s key 1 off = (s, false) := by
  cases key <;> simp [handleKeydown]

theorem handleKeydown_backspace_empty (s : EState) (k : Nat) (p : Page) (hk : 1 < k)
    (hf : findPage s k = some p) (hemp : isPageEmpty p = true) (off : Option Nat) :
    handleKeydown s .backspace k off = ((deleteEmptyPage s k).1, true) := by
  simp only [handleKeydown]
  rw [if_pos hk]
  simp only [hf]
  rw [if_pos hemp]

theorem handleKeydown_del_empty (s : EState) (k : Nat) (p : Page) (hk : 1 < k)
    (hf : findPage s k = some p) (hemp : isPageEmpty p = true) (off : Option Nat) :
    handleKeydown s .del k off = ((deleteEmptyPage s k).1, true) := by
  simp only [handleKeydown]
  rw [if_pos hk]
  simp only [hf]
  rw [if_pos hemp]

theorem handleKeydown_backspace_merge (s : EState) (k : Nat) (p : Page) (hk : 1 < k)
    (hf : findPage s k = some p) (hemp : isPageEmpty p = false) (off : Option Nat)
    (hoff : isCursorAtBeginning off = true) :
    handleKeydown s .backspace k off = ((moveContentToPreviousPage s k).1, true) := by
  simp only [handleKeydown]
  rw [if_pos hk]
  simp only [hf]
  rw [if_neg (by simp [hemp]), if_pos hoff]

theorem handleEnterAtBeginning_eq (s : EState) (k : Nat) (cur : Page) (h : WF s)
    (hf : findPage s k = some cur) :
    handleEnterAtBeginning s k (some 0) =
      ({ setPageOps (setPageOps (createNewPage s) (s.pages.length + 1) cur.ops) k []
          with cursor := some (s.pages.length + 1, 0) }, true) := by
  have hnone : findPage s (s.currentPage + 1) = none := by
    rw [h.2]
    exact findPage_none_of_gt s h.1 _ (by omega)
  have hcp : (createNewPage s).currentPage = s.pages.length + 1 := by
    rw [(WF_createNewPage s h).2, length_pages_createNewPage]
  simp only [handleEnterAtBeginning, hf, hnone, Option.isSome_none]
  rw [if_neg (by simp), hcp]

theorem moveOverflowContent_keeps_source (s : EState) (pageNum : Nat) (m : List Op → ℚ)
    (src : Page) (hf : findPage s pageNum = some src) (hne : src.ops ≠ []) :
    ∃ q, findPage (moveOverflowContent s pageNum m) pageNum = some q ∧ q.ops ≠ [] := by
  have hnum := (findPage_some_mem hf).2
  simp only [moveOverflowContent]
  cases h1 : findPage s s.currentPage with
  | none => exact ⟨src, hf, hne⟩
  | some q0 =>
    simp only [hf]
    by_cases h3 : 1 < src.ops.length
    · rw [if_pos h3]
      by_cases h4 : (splitLoop m src.ops []).2.isEmpty = true
      · rw [if_pos h4]
        refine ⟨{ src with ops := (splitLoop m src.ops []).1 }, ?_, ?_⟩
        · rw [findPage_setPageOps, hf, Option.map_some', updOps_of_num_eq _ hnum]
        · exact (splitLoop_spec m src.ops []).2.1 hne
      · rw [if_neg h4]
        have h4' : (splitLoop m src.ops []).2 ≠ [] := by
          intro hcon
          apply h4
          rw [hcon]
          rfl
        by_cases h5 : pageNum = s.currentPage
        · refine ⟨{ src with ops := (splitLoop m src.ops []).2 }, ?_, h4'⟩
          rw [findPage_setPageOps, findPage_setPageOps, hf, Option.map_some',
            updOps_of_num_eq _ hnum, Option.map_some', updOps_of_num_eq _ (by rw [← h5]; exact hnum)]
        · refine ⟨{ src with ops := (splitLoop m src.ops []).1 }, ?_, ?_⟩
          · rw [findPage_setPageOps, findPage_setPageOps, hf, Option.map_some',
              updOps_of_num_eq _ hnum, Option.map_some',
              updOps_of_num_ne _ (by show src.num ≠ s.currentPage; rw [hnum]; exact h5)]
          · exact (splitLoop_spec m src.ops []).2.1 hne
    · rw [if_neg h3]
      exact ⟨src, hf, hne⟩

/-! ### Export lemmas -/

theorem pageHeight_eq_formula : pageHeight = ((297 : ℚ) - 40) * (378 / 100) := by
  unfold pageHeight
  rw [Rat.mkRat_eq_div]
  norm_num

theorem foldl_pageSection (l : List Page) : ∀ a : String,
    l.foldl (fun acc p => acc ++ pageSection p) a = a ++ renderPages l := by
  induction l with
  | nil =>
    intro a
    show a = a ++ ""
    rw [String.append_empty]
  | cons p rest ih =>
    intro a
    rw [List.foldl_cons, ih]
    show (a ++ pageSection p) ++ renderPages rest = a ++ (pageSection p ++ renderPages rest)
    rw [String.append_assoc]

theorem exportAsText_eq_render (s : EState) :
    exportAsText s = renderPages (sortPages s.pages) := by
  unfold exportAsText
  rw [foldl_pageSection]
  show "" ++ _ = _
  have h : ∀ t : String, "" ++ t = t := by
    intro t
    apply String.ext
    show [] ++ t.data = t.data
    rw [List.nil_append]
  rw [h]

/-! ### Claim theorems -/

/-- C5: attempting to delete page rank 1, and any backspace/delete keydown
targeting rank 1, returns the refusal result and leaves the whole state
(pages, contents, registry bindings, cursor) unchanged. -/
theorem c5_page_one_immortal (s : EState) (off : Option Nat) :
    deleteEmptyPage s 1 = (s, false)
    ∧ handleKeydown s .backspace 1 off = (s, false)
    ∧ handleKeydown s .del 1 off = (s, false) :=
  ⟨deleteEmptyPage_page_one s, handleKeydown_page_one s .backspace off,
    handleKeydown_page_one s .del off⟩

/-- C9: a `text-change` event whose origin is not `'user'` never invokes
the overflow check and leaves the state unchanged, so programmatic content
moves can never trigger further page creation or content movement. -/
theorem c9_programmatic_never_checks_overflow (s : EState) (origin : Origin)
    (pageNum : Nat) (m : List Op → ℚ) (h : origin ≠ Origin.user) :
    onTextChange s origin pageNum m = (s, false) := by
  cases origin with
  | user => exact absurd rfl h
  | api => rfl
  | silent => rfl

/-- Witness for C9 at a concrete non-user origin. -/
theorem c9_programmatic_never_checks_overflow_witness :
    Origin.api ≠ Origin.user
    ∧ onTextChange ⟨[⟨1, ["x\n"]⟩], 1, none⟩ Origin.api 1 (fun _ => 0)
        = (⟨[⟨1, ["x\n"]⟩], 1, none⟩, false) :=
  ⟨by decide,
    c9_programmatic_never_checks_overflow ⟨[⟨1, ["x\n"]⟩], 1, none⟩ Origin.api 1
      (fun _ => 0) (by decide)⟩

/-- C10: `deleteEmptyPage` on a page number greater than 1 whose editor
holds non-empty content (it re-verifies emptiness itself) returns `false`
and changes nothing. -/
theorem c10_delete_refuses_nonempty (s : EState) (k : Nat) (ed : Page) (hk : 1 < k)
    (hf : findPage s k = some ed) (hemp : isPageEmpty ed = false) :
    deleteEmptyPage s k = (s, false) :=
  deleteEmptyPage_not_empty s k ed (by omega) hf hemp

/-- Witness for C10 on a concrete two-page state with non-empty page 2. -/
theorem c10_delete_refuses_nonempty_witness :
    (1 : Nat) < 2
    ∧ findPage ⟨[⟨1, ["A\n"]⟩, ⟨2, ["x\n"]⟩], 2, none⟩ 2 = some ⟨2, ["x\n"]⟩
    ∧ isPageEmpty ⟨2, ["x\n"]⟩ = false
    ∧ deleteEmptyPage ⟨[⟨1, ["A\n"]⟩, ⟨2, ["x\n"]⟩], 2, none⟩ 2
        = (⟨[⟨1, ["A\n"]⟩, ⟨2, ["x\n"]⟩], 2, none⟩, false) :=
  ⟨by decide, by decide, by decide,
    c10_delete_refuses_nonempty ⟨[⟨1, ["A\n"]⟩, ⟨2, ["x\n"]⟩], 2, none⟩ 2 ⟨2, ["x\n"]⟩
      (by decide) (by decide) (by decide)⟩

/-- C3: the split loop satisfies its loop equation (it is a total
function, i.e. it terminates, for every op list and every behavior of the
layout measurement), it only moves ops from the end (kept prefix plus
moved suffix reassemble the input), it never empties a non-empty source,
and `moveOverflowContent` always leaves the source page with at least one
op when it had one — even when a single remaining op alone exceeds the
page capacity. -/
theorem c3_split_loop_safe (m : List Op → ℚ) (ops acc : List Op) (s : EState)
    (pageNum : Nat) (src : Page) (hf : findPage s pageNum = some src)
    (hne : src.ops ≠ []) :
    (splitLoop m ops acc =
        if pageHeight < m ops ∧ 1 < ops.length then
          splitLoop m ops.dropLast ((ops.getLast?.getD "") :: acc)
        else (ops, acc))
    ∧ (splitLoop m ops acc).1 ++ (splitLoop m ops acc).2 = ops ++ acc
    ∧ (ops ≠ [] → (splitLoop m ops acc).1 ≠ [])
    ∧ ∃ q, findPage (moveOverflowContent s pageNum m) pageNum = some q ∧ q.ops ≠ [] := by
  obtain ⟨h1, h2, _⟩ := splitLoop_spec m ops acc
  exact ⟨splitLoop_unfold m ops acc, h1, h2,
    moveOverflowContent_keeps_source s pageNum m src hf hne⟩

/-- Witness for C3 with a measurement that always exceeds the capacity. -/
theorem c3_split_loop_safe_witness :
    findPage ⟨[⟨1, ["u", "v"]⟩], 1, none⟩ 1 = some ⟨1, ["u", "v"]⟩
    ∧ (⟨1, ["u", "v"]⟩ : Page).ops ≠ []
    ∧ ((splitLoop (fun _ => 2000) ["a", "b", "c"] [] =
          if pageHeight < (fun _ => (2000 : ℚ)) ["a", "b", "c"] ∧ 1 < (["a", "b", "c"] : List Op).length then
            splitLoop (fun _ => 2000) (["a", "b", "c"] : List Op).dropLast
              (((["a", "b", "c"] : List Op).getLast?.getD "") :: [])
          else (["a", "b", "c"], []))
        ∧ (splitLoop (fun _ => 2000) ["a", "b", "c"] []).1
            ++ (splitLoop (fun _ => 2000) ["a", "b", "c"] []).2 = ["a", "b", "c"] ++ []
        ∧ ((["a", "b", "c"] : List Op) ≠ [] → (splitLoop (fun _ => 2000) ["a", "b", "c"] []).1 ≠ [])
        ∧ ∃ q, findPage (moveOverflowContent ⟨[⟨1, ["u", "v"]⟩], 1, none⟩ 1 (fun _ => 2000)) 1
            = some q ∧ q.ops ≠ []) :=
  ⟨by decide, by decide,
    c3_split_loop_safe (fun _ => 2000) ["a", "b", "c"] [] ⟨[⟨1, ["u", "v"]⟩], 1, none⟩ 1
      ⟨1, ["u", "v"]⟩ (by decide) (by decide)⟩

/-- C2: after page creation, empty-page deletion (with renumbering) and the
overflow split, the live page ranks are exactly the contiguous sequence
`1..N` and rank 1 exists. -/
theorem c2_rank_density (s : EState) (pageNum : Nat) (m : List Op → ℚ) (hWF : WF s)
    (hne : s.pages ≠ []) :
    (ranks (createNewPage s) = List.range' 1 (createNewPage s).pages.length
        ∧ 1 ∈ ranks (createNewPage s))
    ∧ (ranks (deleteEmptyPage s pageNum).1
          = List.range' 1 (deleteEmptyPage s pageNum).1.pages.length
        ∧ 1 ∈ ranks (deleteEmptyPage s pageNum).1)
    ∧ (ranks (checkPageOverflow s pageNum m)
          = List.range' 1 (checkPageOverflow s pageNum m).pages.length
        ∧ 1 ∈ ranks (checkPageOverflow s pageNum m)) := by
  have mem1 : ∀ t : EState, RanksDense t → t.pages ≠ [] → 1 ∈ ranks t := by
    intro t hd hn
    rw [hd]
    apply List.mem_range'_1.mpr
    have := List.length_pos.mpr hn
    omega
  have hcr := WF_createNewPage s hWF
  have hcrne : (createNewPage s).pages ≠ [] := by
    apply List.ne_nil_of_length_pos
    rw [length_pages_createNewPage]
    omega
  have hdel := deleteEmptyPage_WF_ne s pageNum hWF hne
  have hov := WF_checkPageOverflow s pageNum m hWF
  have hovne := checkPageOverflow_ne s pageNum m hne
  exact ⟨⟨hcr.1, mem1 _ hcr.1 hcrne⟩, ⟨hdel.1.1, mem1 _ hdel.1.1 hdel.2⟩,
    ⟨hov.1, mem1 _ hov.1 hovne⟩⟩

/-- Witness for C2 on a concrete two-page state. -/
theorem c2_rank_density_witness :
    WF ⟨[⟨1, ["A\n"]⟩, ⟨2, ["\n"]⟩], 2, none⟩
    ∧ (⟨[⟨1, ["A\n"]⟩, ⟨2, ["\n"]⟩], 2, none⟩ : EState).pages ≠ []
    ∧ ((ranks (createNewPage ⟨[⟨1, ["A\n"]⟩, ⟨2, ["\n"]⟩], 2, none⟩)
          = List.range' 1 (createNewPage ⟨[⟨1, ["A\n"]⟩, ⟨2, ["\n"]⟩], 2, none⟩).pages.length
        ∧ 1 ∈ ranks (createNewPage ⟨[⟨1, ["A\n"]⟩, ⟨2, ["\n"]⟩], 2, none⟩))
      ∧ (ranks (deleteEmptyPage ⟨[⟨1, ["A\n"]⟩, ⟨2, ["\n"]⟩], 2, none⟩ 2).1
            = List.range' 1 (deleteEmptyPage ⟨[⟨1, ["A\n"]⟩, ⟨2, ["\n"]⟩], 2, none⟩ 2).1.pages.length
          ∧ 1 ∈ ranks (deleteEmptyPage ⟨[⟨1, ["A\n"]⟩, ⟨2, ["\n"]⟩], 2, none⟩ 2).1)
      ∧ (ranks (checkPageOverflow ⟨[⟨1, ["A\n"]⟩, ⟨2, ["\n"]⟩], 2, none⟩ 2 (fun _ => 0))
            = List.range' 1
                (checkPageOverflow ⟨[⟨1, ["A\n"]⟩, ⟨2, ["\n"]⟩], 2, none⟩ 2 (fun _ => 0)).pages.length
          ∧ 1 ∈ ranks (checkPageOverflow ⟨[⟨1, ["A\n"]⟩, ⟨2, ["\n"]⟩], 2, none⟩ 2 (fun _ => 0)))) :=
  ⟨by decide, by decide,
    c2_rank_density ⟨[⟨1, ["A\n"]⟩, ⟨2, ["\n"]⟩], 2, none⟩ 2 (fun _ => 0) (by decide) (by decide)⟩

/-- C8: the plain-text export of pages "a","b","c" is exactly the expected
string, and in general the export renders one `--- Page N ---` section
before each page's text, over the pages sorted in ascending rank order (a
permutation of the registry, so creation order is irrelevant). -/
theorem c8_export_ascending :
    exportAsText ⟨[⟨1, ["a"]⟩, ⟨2, ["b"]⟩, ⟨3, ["c"]⟩], 3, none⟩
        = "\n\n--- Page 1 ---\n\na\n\n--- Page 2 ---\n\nb\n\n--- Page 3 ---\n\nc"
    ∧ ∀ s : EState,
        List.Sorted (fun p q : Page => p.num ≤ q.num) (sortPages s.pages)
        ∧ List.Perm (sortPages s.pages) s.pages
        ∧ exportAsText s = renderPages (sortPages s.pages) := by
  refine ⟨by decide, fun s => ⟨?_, ?_, exportAsText_eq_render s⟩⟩
  · exact List.sorted_insertionSort _ _
  · exact List.perm_insertionSort _ _

/-- C4: for an empty page (text a single newline or trimming to empty) of
rank greater than 1, both Backspace and Delete prevent the default and run
the empty-page deletion — regardless of the cursor offset, so empty-page
deletion takes priority over the start-of-page merge — which succeeds,
removes one page, leaves dense ranks, keeps the previous page intact and
places the cursor at the end of the previous page's text. -/
theorem c4_empty_page_deletion (s : EState) (k : Nat) (p prev : Page) (hWF : WF s)
    (hk : 1 < k) (hf : findPage s k = some p) (hemp : isPageEmpty p = true)
    (hprev : findPage s (k - 1) = some prev) (off : Option Nat) :
    handleKeydown s .backspace k off = ((deleteEmptyPage s k).1, true)
    ∧ handleKeydown s .del k off = ((deleteEmptyPage s k).1, true)
    ∧ (deleteEmptyPage s k).2 = true
    ∧ (deleteEmptyPage s k).1.pages.length = s.pages.length - 1
    ∧ RanksDense (deleteEmptyPage s k).1
    ∧ findPage (deleteEmptyPage s k).1 (k - 1) = some prev
    ∧ (deleteEmptyPage s k).1.cursor = some (k - 1, (getText prev).length - 1) := by
  have hd := hWF.1
  obtain ⟨hb1, hb2⟩ := findPage_bounds hd hf
  have heq := deleteEmptyPage_eq_success s k p prev hd (by omega) hf hemp hprev
  have hR : (s.pages.take (k - 1) ++ s.pages.drop k).length = s.pages.length - 1 := by
    rw [List.length_append, List.length_take, List.length_drop]
    omega
  refine ⟨handleKeydown_backspace_empty s k p hk hf hemp off,
    handleKeydown_del_empty s k p hk hf hemp off, ?_, ?_, ?_, ?_, ?_⟩
  · rw [heq]
  · rw [heq]
    show (renumberFrom 1 _).length = _
    rw [renumberFrom_length, hR]
  · rw [heq]
    exact (WF_renumber_update _).1
  · rw [heq]
    rw [renumber_update_lookup _ _ _ (k - 1) (by omega) (by rw [hR]; omega)]
    have hidx : (s.pages.take (k - 1) ++ s.pages.drop k)[k - 1 - 1]? = some prev := by
      rw [List.getElem?_append, if_pos (by rw [List.length_take]; omega),
        List.getElem?_take, if_pos (by omega)]
      rw [← findPage_dense s hd (k - 1) (by omega) (by omega)]
      exact hprev
    rw [hidx, Option.map_some', page_update_num_self prev (k - 1) (findPage_some_mem hprev).2]
  · rw [heq]
    rfl

/-- Witness for C4 on pages [P1 "A\n", P2 "\n"] with the cursor at offset 0
of the empty page 2 (where the merge branch could also fire). -/
theorem c4_empty_page_deletion_witness :
    WF ⟨[⟨1, ["A\n"]⟩, ⟨2, ["\n"]⟩], 2, none⟩
    ∧ (1 : Nat) < 2
    ∧ findPage ⟨[⟨1, ["A\n"]⟩, ⟨2, ["\n"]⟩], 2, none⟩ 2 = some ⟨2, ["\n"]⟩
    ∧ isPageEmpty ⟨2, ["\n"]⟩ = true
    ∧ findPage ⟨[⟨1, ["A\n"]⟩, ⟨2, ["\n"]⟩], 2, none⟩ 1 = some ⟨1, ["A\n"]⟩
    ∧ (handleKeydown ⟨[⟨1, ["A\n"]⟩, ⟨2, ["\n"]⟩], 2, none⟩ .backspace 2 (some 0)
          = ((deleteEmptyPage ⟨[⟨1, ["A\n"]⟩, ⟨2, ["\n"]⟩], 2, none⟩ 2).1, true)
      ∧ handleKeydown ⟨[⟨1, ["A\n"]⟩, ⟨2, ["\n"]⟩], 2, none⟩ .del 2 (some 0)
          = ((deleteEmptyPage ⟨[⟨1, ["A\n"]⟩, ⟨2, ["\n"]⟩], 2, none⟩ 2).1, true)
      ∧ (deleteEmptyPage ⟨[⟨1, ["A\n"]⟩, ⟨2, ["\n"]⟩], 2, none⟩ 2).2 = true
      ∧ (deleteEmptyPage ⟨[⟨1, ["A\n"]⟩, ⟨2, ["\n"]⟩], 2, none⟩ 2).1.pages.length
          = (⟨[⟨1, ["A\n"]⟩, ⟨2, ["\n"]⟩], 2, none⟩ : EState).pages.length - 1
      ∧ RanksDense (deleteEmptyPage ⟨[⟨1, ["A\n"]⟩, ⟨2, ["\n"]⟩], 2, none⟩ 2).1
      ∧ findPage (deleteEmptyPage ⟨[⟨1, ["A\n"]⟩, ⟨2, ["\n"]⟩], 2, none⟩ 2).1 1
          = some ⟨1, ["A\n"]⟩
      ∧ (deleteEmptyPage ⟨[⟨1, ["A\n"]⟩, ⟨2, ["\n"]⟩], 2, none⟩ 2).1.cursor
          = some (1, (getText ⟨1, ["A\n"]⟩).length - 1)) :=
  ⟨by decide, by decide, by decide, by decide, by decide,
    c4_empty_page_deletion ⟨[⟨1, ["A\n"]⟩, ⟨2, ["\n"]⟩], 2, none⟩ 2 ⟨2, ["\n"]⟩ ⟨1, ["A\n"]⟩
      (by decide) (by decide) (by decide) (by decide) (by decide) (some 0)⟩

/-- C1: Backspace at offset 0 of a non-empty page of rank greater than 1
prevents the default and runs the merge: the previous page's ops become
its old ops followed by the merged page's ops, one page is removed, ranks
are renumbered densely, and the cursor lands at the join point — the end
of what was previously the previous page's text. -/
theorem c1_backspace_start_merge (s : EState) (k : Nat) (prev cur : Page) (hWF : WF s)
    (hk : 1 < k) (hprev : findPage s (k - 1) = some prev) (hcur : findPage s k = some cur)
    (hemp : isPageEmpty cur = false) :
    handleKeydown s .backspace k (some 0) = ((moveContentToPreviousPage s k).1, true)
    ∧ (moveContentToPreviousPage s k).1.pages.length = s.pages.length - 1
    ∧ RanksDense (moveContentToPreviousPage s k).1
    ∧ findPage (moveContentToPreviousPage s k).1 (k - 1)
        = some { num := k - 1, ops := prev.ops ++ cur.ops }
    ∧ (moveContentToPreviousPage s k).1.cursor = some (k - 1, (getText prev).length) := by
  have hd := hWF.1
  obtain ⟨hb1, hb2⟩ := findPage_bounds hd hcur
  have heq := moveContentToPreviousPage_eq s k prev cur hd hprev hcur
  have hmlen : (s.pages.map (appendOps (k - 1) cur.ops)).length = s.pages.length :=
    List.length_map s.pages (appendOps (k - 1) cur.ops)
  have hR : ((s.pages.map (appendOps (k - 1) cur.ops)).take (k - 1)
      ++ (s.pages.map (appendOps (k - 1) cur.ops)).drop k).length = s.pages.length - 1 := by
    rw [List.length_append, List.length_take, List.length_drop, hmlen]
    omega
  refine ⟨handleKeydown_backspace_merge s k cur hk hcur hemp (some 0) (by decide),
    ?_, ?_, ?_, ?_⟩
  · rw [heq]
    show (renumberFrom 1 _).length = _
    rw [renumberFrom_length, hR]
  · rw [heq]
    exact (WF_renumber_update _).1
  · rw [heq]
    rw [renumber_update_lookup _ _ _ (k - 1) (by omega) (by rw [hR]; omega)]
    have hidx : ((s.pages.map (appendOps (k - 1) cur.ops)).take (k - 1)
        ++ (s.pages.map (appendOps (k - 1) cur.ops)).drop k)[k - 1 - 1]?
        = some { prev with ops := prev.ops ++ cur.ops } := by
      rw [List.getElem?_append, if_pos (by rw [List.length_take, hmlen]; omega),
        List.getElem?_take, if_pos (by omega)]
      rw [List.getElem?_map]
      rw [← findPage_dense s hd (k - 1) (by omega) (by omega), hprev, Option.map_some',
        appendOps_of_num_eq _ (findPage_some_mem hprev).2]
    rw [hidx, Option.map_some']
  · rw [heq]
    rfl

/-- Witness for C1: the spec's Scenario B — pages [P1 "A", P2 "B"],
backspace at offset 0 of page 2. -/
theorem c1_backspace_start_merge_witness :
    WF ⟨[⟨1, ["A"]⟩, ⟨2, ["B"]⟩], 2, none⟩
    ∧ (1 : Nat) < 2
    ∧ findPage ⟨[⟨1, ["A"]⟩, ⟨2, ["B"]⟩], 2, none⟩ 1 = some ⟨1, ["A"]⟩
    ∧ findPage ⟨[⟨1, ["A"]⟩, ⟨2, ["B"]⟩], 2, none⟩ 2 = some ⟨2, ["B"]⟩
    ∧ isPageEmpty ⟨2, ["B"]⟩ = false
    ∧ (handleKeydown ⟨[⟨1, ["A"]⟩, ⟨2, ["B"]⟩], 2, none⟩ .backspace 2 (some 0)
          = ((moveContentToPreviousPage ⟨[⟨1, ["A"]⟩, ⟨2, ["B"]⟩], 2, none⟩ 2).1, true)
      ∧ (moveContentToPreviousPage ⟨[⟨1, ["A"]⟩, ⟨2, ["B"]⟩], 2, none⟩ 2).1.pages.length
          = (⟨[⟨1, ["A"]⟩, ⟨2, ["B"]⟩], 2, none⟩ : EState).pages.length - 1
      ∧ RanksDense (moveContentToPreviousPage ⟨[⟨1, ["A"]⟩, ⟨2, ["B"]⟩], 2, none⟩ 2).1
      ∧ findPage (moveContentToPreviousPage ⟨[⟨1, ["A"]⟩, ⟨2, ["B"]⟩], 2, none⟩ 2).1 1
          = some { num := 1, ops := (⟨1, ["A"]⟩ : Page).ops ++ (⟨2, ["B"]⟩ : Page).ops }
      ∧ (moveContentToPreviousPage ⟨[⟨1, ["A"]⟩, ⟨2, ["B"]⟩], 2, none⟩ 2).1.cursor
          = some (1, (getText ⟨1, ["A"]⟩).length)) :=
  ⟨by decide, by decide, by decide, by decide, by decide,
    c1_backspace_start_merge ⟨[⟨1, ["A"]⟩, ⟨2, ["B"]⟩], 2, none⟩ 2 ⟨1, ["A"]⟩ ⟨2, ["B"]⟩
      (by decide) (by decide) (by decide) (by decide) (by decide)⟩

/-- C7 counterexample: on pages [P1 "A\n", P2 "B\n"], Enter at offset 0 of
page 1 does not move page 1's content into the next page (page 2 keeps
exactly its old ops) and does not leave the cursor at the top of the first
page: a freshly created page 3 receives the content and the cursor. -/
theorem c7_counterexample :
    (handleEnterAtBeginning ⟨[⟨1, ["A\n"]⟩, ⟨2, ["B\n"]⟩], 2, none⟩ 1 (some 0)).1.pages
        = [⟨1, []⟩, ⟨2, ["B\n"]⟩, ⟨3, ["A\n"]⟩]
    ∧ (handleEnterAtBeginning ⟨[⟨1, ["A\n"]⟩, ⟨2, ["B\n"]⟩], 2, none⟩ 1 (some 0)).1.cursor
        = some (3, 0)
    ∧ (handleEnterAtBeginning ⟨[⟨1, ["A\n"]⟩, ⟨2, ["B\n"]⟩], 2, none⟩ 1 (some 0)).1.cursor
        ≠ some (1, 0) := by decide

/-- C7 (amended): Enter at offset 0 of page 1 prevents the default,
creates a new page appended at the end of the document, moves the entire
content of page 1 into that new last page, clears page 1, leaves every
other page unchanged, and places the cursor at the top (offset 0) of the
new last page. -/
theorem c7_enter_at_start_amended (s : EState) (cur : Page) (hWF : WF s)
    (hcur : findPage s 1 = some cur) :
    (handleEnterAtBeginning s 1 (some 0)).2 = true
    ∧ (handleEnterAtBeginning s 1 (some 0)).1.pages.length = s.pages.length + 1
    ∧ findPage (handleEnterAtBeginning s 1 (some 0)).1 (s.pages.length + 1)
        = some ⟨s.pages.length + 1, cur.ops⟩
    ∧ findPage (handleEnterAtBeginning s 1 (some 0)).1 1 = some { cur with ops := [] }
    ∧ (∀ j, 2 ≤ j → j ≤ s.pages.length →
        findPage (handleEnterAtBeginning s 1 (some 0)).1 j = findPage s j)
    ∧ (handleEnterAtBeginning s 1 (some 0)).1.cursor = some (s.pages.length + 1, 0) := by
  have heq := handleEnterAtBeginning_eq s 1 cur hWF hcur
  have hnum1 : cur.num = 1 := (findPage_some_mem hcur).2
  have hN1 : 1 ≤ s.pages.length := by
    have := findPage_bounds hWF.1 hcur
    omega
  refine ⟨by rw [heq], ?_, ?_, ?_, ?_, by rw [heq]⟩
  · rw [heq]
    show (setPageOps (setPageOps (createNewPage s) _ _) _ _).pages.length = _
    rw [length_setPageOps, length_setPageOps, length_pages_createNewPage]
  · rw [heq]
    show findPage (setPageOps (setPageOps (createNewPage s) (s.pages.length + 1) cur.ops) 1 [])
        (s.pages.length + 1) = _
    rw [findPage_setPageOps, findPage_setPageOps, findPage_createNewPage_new s hWF,
      Option.map_some',
      @updOps_of_num_eq (⟨s.pages.length + 1, ["\n"]⟩ : Page) (s.pages.length + 1) cur.ops rfl,
      Option.map_some', updOps_of_num_ne _ (by show s.pages.length + 1 ≠ 1; omega)]
  · rw [heq]
    show findPage (setPageOps (setPageOps (createNewPage s) (s.pages.length + 1) cur.ops) 1 [])
        1 = _
    rw [findPage_setPageOps, findPage_setPageOps, findPage_createNewPage_of_some hcur,
      Option.map_some', updOps_of_num_ne _ (by rw [hnum1]; omega), Option.map_some',
      updOps_of_num_eq _ hnum1]
  · intro j hj2 hjN
    rw [heq]
    show findPage (setPageOps (setPageOps (createNewPage s) (s.pages.length + 1) cur.ops) 1 [])
        j = _
    rw [findPage_setPageOps, findPage_setPageOps,
      findPage_createNewPage_of_ne s j (by rw [hWF.2]; omega)]
    cases hfj : findPage s j with
    | none => rfl
    | some pj =>
      rw [Option.map_some', updOps_of_num_ne _ (by rw [(findPage_some_mem hfj).2]; omega),
        Option.map_some', updOps_of_num_ne _ (by rw [(findPage_some_mem hfj).2]; omega)]

/-- Witness for the amended C7 on a single-page document. -/
theorem c7_enter_at_start_amended_witness :
    WF ⟨[⟨1, ["A\n"]⟩], 1, none⟩
    ∧ findPage ⟨[⟨1, ["A\n"]⟩], 1, none⟩ 1 = some ⟨1, ["A\n"]⟩
    ∧ ((handleEnterAtBeginning ⟨[⟨1, ["A\n"]⟩], 1, none⟩ 1 (some 0)).2 = true
      ∧ (handleEnterAtBeginning ⟨[⟨1, ["A\n"]⟩], 1, none⟩ 1 (some 0)).1.pages.length
          = (⟨[⟨1, ["A\n"]⟩], 1, none⟩ : EState).pages.length + 1
      ∧ findPage (handleEnterAtBeginning ⟨[⟨1, ["A\n"]⟩], 1, none⟩ 1 (some 0)).1
            ((⟨[⟨1, ["A\n"]⟩], 1, none⟩ : EState).pages.length + 1)
          = some ⟨(⟨[⟨1, ["A\n"]⟩], 1, none⟩ : EState).pages.length + 1, (⟨1, ["A\n"]⟩ : Page).ops⟩
      ∧ findPage (handleEnterAtBeginning ⟨[⟨1, ["A\n"]⟩], 1, none⟩ 1 (some 0)).1 1
          = some { (⟨1, ["A\n"]⟩ : Page) with ops := [] }
      ∧ (∀ j, 2 ≤ j → j ≤ (⟨[⟨1, ["A\n"]⟩], 1, none⟩ : EState).pages.length →
          findPage (handleEnterAtBeginning ⟨[⟨1, ["A\n"]⟩], 1, none⟩ 1 (some 0)).1 j
            = findPage ⟨[⟨1, ["A\n"]⟩], 1, none⟩ j)
      ∧ (handleEnterAtBeginning ⟨[⟨1, ["A\n"]⟩], 1, none⟩ 1 (some 0)).1.cursor
          = some ((⟨[⟨1, ["A\n"]⟩], 1, none⟩ : EState).pages.length + 1, 0)) :=
  ⟨by decide, by decide,
    c7_enter_at_start_amended ⟨[⟨1, ["A\n"]⟩], 1, none⟩ ⟨1, ["A\n"]⟩ (by decide) (by decide)⟩

/-- C6 counterexample: pages [P1 ["X\n","Y\n"], P2 ["Z\n"]] with page 1
overflowing (measurement constantly 1000 > pageHeight): although page 1 is
not the last page and a next page (rank 2) already exists, a new page is
created (the page count grows from 2 to 3) and the overflow op lands on
the new page 3 while the existing next page 2 keeps exactly its old
content. -/
theorem c6_counterexample :
    (checkPageOverflow ⟨[⟨1, ["X\n", "Y\n"]⟩, ⟨2, ["Z\n"]⟩], 2, none⟩ 1 (fun _ => 1000)).pages
        = [⟨1, ["X\n"]⟩, ⟨2, ["Z\n"]⟩, ⟨3, ["Y\n"]⟩]
    ∧ (checkPageOverflow ⟨[⟨1, ["X\n", "Y\n"]⟩, ⟨2, ["Z\n"]⟩], 2, none⟩ 1
        (fun _ => 1000)).pages.length ≠ 2 := by decide

/-- C6 (amended): on a user-driven content-changed event for an
overflowing page with at least two ops, the controller unconditionally
creates a new page at the end of the document — even when a next page
already exists — and moves the popped overflow ops into that new last
page; every page other than the source (including any existing next page)
is unchanged, and the source keeps the ops the split loop retained. -/
theorem c6_overflow_amended (s : EState) (pageNum : Nat) (m : List Op → ℚ) (src : Page)
    (hWF : WF s) (hf : findPage s pageNum = some src) (hov : pageHeight < m src.ops)
    (hlen : 1 < src.ops.length) :
    (checkPageOverflow s pageNum m).pages.length = s.pages.length + 1
    ∧ (∀ j, j ≠ pageNum → j ≤ s.pages.length →
        findPage (checkPageOverflow s pageNum m) j = findPage s j)
    ∧ findPage (checkPageOverflow s pageNum m) pageNum
        = some { src with ops := (splitLoop m src.ops []).1 }
    ∧ findPage (checkPageOverflow s pageNum m) (s.pages.length + 1)
        = some ⟨s.pages.length + 1, (splitLoop m src.ops []).2⟩ := by
  obtain ⟨hb1, hb2⟩ := findPage_bounds hWF.1 hf
  have hnum : src.num = pageNum := (findPage_some_mem hf).2
  have hcp : (createNewPage s).currentPage = s.pages.length + 1 := by
    rw [(WF_createNewPage s hWF).2, length_pages_createNewPage]
  have h2 : findPage (createNewPage s) pageNum = some src :=
    findPage_createNewPage_of_some hf
  have htgt : findPage (createNewPage s) (createNewPage s).currentPage
      = some ⟨s.pages.length + 1, ["\n"]⟩ := by
    rw [hcp]
    exact findPage_createNewPage_new s hWF
  have hmoved : (splitLoop m src.ops []).2 ≠ [] := by
    rw [splitLoop_unfold, if_pos ⟨hov, hlen⟩]
    obtain ⟨-, -, pre, hpre⟩ :=
      splitLoop_spec m src.ops.dropLast ((src.ops.getLast?.getD "") :: [])
    rw [hpre]
    simp
  have hmb : (splitLoop m src.ops []).2.isEmpty = false := by
    cases hc : (splitLoop m src.ops []).2 with
    | nil => exact absurd hc hmoved
    | cons a l => rfl
  have hred : checkPageOverflow s pageNum m
      = setPageOps (setPageOps (createNewPage s) pageNum (splitLoop m src.ops []).1)
          (s.pages.length + 1) (splitLoop m src.ops []).2 := by
    simp only [checkPageOverflow, hf]
    rw [if_pos hov]
    simp only [moveOverflowContent, htgt, h2]
    rw [if_pos hlen, if_neg (by simp [hmb]), hcp]
  refine ⟨?_, ?_, ?_, ?_⟩
  · rw [hred, length_setPageOps, length_setPageOps, length_pages_createNewPage]
  · intro j hj hjN
    rw [hred, findPage_setPageOps, findPage_setPageOps,
      findPage_createNewPage_of_ne s j (by rw [hWF.2]; omega)]
    cases hfj : findPage s j with
    | none => rfl
    | some pj =>
      rw [Option.map_some', updOps_of_num_ne _ (by rw [(findPage_some_mem hfj).2]; exact hj),
        Option.map_some', updOps_of_num_ne _ (by rw [(findPage_some_mem hfj).2]; omega)]
  · rw [hred, findPage_setPageOps, findPage_setPageOps, h2, Option.map_some',
      updOps_of_num_eq _ hnum, Option.map_some',
      updOps_of_num_ne _ (by show src.num ≠ s.pages.length + 1; rw [hnum]; omega)]
  · rw [hred, findPage_setPageOps, findPage_setPageOps, findPage_createNewPage_new s hWF,
      Option.map_some',
      updOps_of_num_ne _ (by show s.pages.length + 1 ≠ pageNum; omega), Option.map_some',
      @updOps_of_num_eq (⟨s.pages.length + 1, ["\n"]⟩ : Page) (s.pages.length + 1)
        (splitLoop m src.ops []).2 rfl]

/-- Witness for the amended C6 on the two-page counterexample state. -/
theorem c6_overflow_amended_witness :
    WF ⟨[⟨1, ["X\n", "Y\n"]⟩, ⟨2, ["Z\n"]⟩], 2, none⟩
    ∧ findPage ⟨[⟨1, ["X\n", "Y\n"]⟩, ⟨2, ["Z\n"]⟩], 2, none⟩ 1 = some ⟨1, ["X\n", "Y\n"]⟩
    ∧ pageHeight < (fun _ => (1000 : ℚ)) (⟨1, ["X\n", "Y\n"]⟩ : Page).ops
    ∧ 1 < (⟨1, ["X\n", "Y\n"]⟩ : Page).ops.length
    ∧ ((checkPageOverflow ⟨[⟨1, ["X\n", "Y\n"]⟩, ⟨2, ["Z\n"]⟩], 2, none⟩ 1
          (fun _ => 1000)).pages.length
        = (⟨[⟨1, ["X\n", "Y\n"]⟩, ⟨2, ["Z\n"]⟩], 2, none⟩ : EState).pages.length + 1
      ∧ (∀ j, j ≠ 1 → j ≤ (⟨[⟨1, ["X\n", "Y\n"]⟩, ⟨2, ["Z\n"]⟩], 2, none⟩ : EState).pages.length →
          findPage (checkPageOverflow ⟨[⟨1, ["X\n", "Y\n"]⟩, ⟨2, ["Z\n"]⟩], 2, none⟩ 1
            (fun _ => 1000)) j
            = findPage ⟨[⟨1, ["X\n", "Y\n"]⟩, ⟨2, ["Z\n"]⟩], 2, none⟩ j)
      ∧ findPage (checkPageOverflow ⟨[⟨1, ["X\n", "Y\n"]⟩, ⟨2, ["Z\n"]⟩], 2, none⟩ 1
          (fun _ => 1000)) 1
          = some { (⟨1, ["X\n", "Y\n"]⟩ : Page) with
              ops := (splitLoop (fun _ => 1000) (⟨1, ["X\n", "Y\n"]⟩ : Page).ops []).1 }
      ∧ findPage (checkPageOverflow ⟨[⟨1, ["X\n", "Y\n"]⟩, ⟨2, ["Z\n"]⟩], 2, none⟩ 1
          (fun _ => 1000))
          ((⟨[⟨1, ["X\n", "Y\n"]⟩, ⟨2, ["Z\n"]⟩], 2, none⟩ : EState).pages.length + 1)
          = some ⟨(⟨[⟨1, ["X\n", "Y\n"]⟩, ⟨2, ["Z\n"]⟩], 2, none⟩ : EState).pages.length + 1,
              (splitLoop (fun _ => 1000) (⟨1, ["X\n", "Y\n"]⟩ : Page).ops []).2⟩) :=
  ⟨by decide, by decide, by decide, by decide,
    c6_overflow_amended ⟨[⟨1, ["X\n", "Y\n"]⟩, ⟨2, ["Z\n"]⟩], 2, none⟩ 1 (fun _ => 1000)
      ⟨1, ["X\n", "Y\n"]⟩ (by decide) (by decide) (by decide) (by decide)⟩
